import Mathlib

set_option autoImplicit false

/-!
Shallow embedding of the crisis-hackaton legal-document segmentation pipeline.

Document text is modelled as `List Char` (Python `str` indexing is by code
point).  The generative segmentation service is an oracle
`Nat → List Char → SegResult` mapping the call index and the call's input text
to the parsed response; `remainder = none` models the absent/null remainder of
the exhausted-retry fallback, `remainder = some r` a response whose parsed
JSON carries the string `r` under the key `remainder`.
-/

/-- Python slice `l[a : b]` (step 1) with CPython's index semantics:
negative indices count from the end, and both bounds are clamped to `[0, n]`. -/
def pySlice (l : List Char) (a b : Int) : List Char :=
  let n : Int := (l.length : Int)
  let a' : Int := if a < 0 then max 0 (n + a) else min a n
  let b' : Int := if b < 0 then max 0 (n + b) else min b n
  (l.drop a'.toNat).take (b' - a').toNat

/-- Configuration constant `MAX_SEGMENT_SIZE` of `semantic_chunker.py` and
`app/pipeline.py`. -/
def MAX_SEGMENT_SIZE : Nat := 2500

/-- Parsed chunk object returned by the segmentation service
(`ChunkSchema`: all five fields required). -/
structure RawChunk where
  title : String
  jurisdiction : String
  language : String
  article_number : String
  text : List Char
deriving DecidableEq

/-- An indexable chunk: a `RawChunk` plus the identifier minted by
`chunk["id"] = str(uuid.uuid4())`.  Freshness of `uuid4` is modelled by a
counter so each minted identifier is new. -/
structure Chunk where
  raw : RawChunk
  id : Nat
deriving DecidableEq

/-- Parsed response of one segmentation call, as seen by `process_document`:
`result.get("chunks", [])` and the value found under `"remainder"`
(`none` models an absent or null remainder). -/
structure SegResult where
  chunks : List RawChunk
  remainder : Option (List Char)
deriving DecidableEq

/-- The mutable state of `LegalTextSegmenter.process_document`
(`semantic_chunker.py`), with ghost fields `calls`/`inputs` recording each
service invocation and its input text, and `nextId` the identifier supply. -/
structure SegState where
  cursor : Int
  current_remainder : List Char
  all_final_chunks : List Chunk
  segment_index : Nat
  calls : Nat
  inputs : List (List Char)
  nextId : Nat
deriving DecidableEq

/-- Initial state of `process_document`: `cursor = 0`, `current_remainder = ""`,
no collected chunks. -/
def initSegState : SegState :=
  { cursor := 0, current_remainder := [], all_final_chunks := [],
    segment_index := 0, calls := 0, inputs := [], nextId := 0 }

/-- The fresh slice of one loop iteration:
`new_segment = full_raw_text[segment_start : segment_start + MAX_SEGMENT_SIZE]`
with `segment_start = cursor + len(current_remainder)`. -/
def newSegmentOf (maxSize : Nat) (doc : List Char) (s : SegState) : List Char :=
  let segment_start : Int := s.cursor + (s.current_remainder.length : Int)
  pySlice doc segment_start (segment_start + (maxSize : Int))

/-- The input of one loop iteration: `input_text = current_remainder + new_segment`. -/
def inputTextOf (maxSize : Nat) (doc : List Char) (s : SegState) : List Char :=
  s.current_remainder ++ newSegmentOf maxSize doc s

/-- Mint fresh identifiers for the chunks of one response, in arrival order. -/
def mintChunks (start : Nat) (cs : List RawChunk) : List Chunk :=
  cs.enum.map fun p => { raw := p.2, id := start + p.1 }

/-- Append the response's chunks (with fresh identifiers) to `all_final_chunks`. -/
def collectChunks (s : SegState) (cs : List RawChunk) : SegState :=
  { s with all_final_chunks := s.all_final_chunks ++ mintChunks s.nextId cs,
           nextId := s.nextId + cs.length }

/-- Remainder/cursor management of one iteration of `process_document`
(`semantic_chunker.py` lines 229-245): on a present remainder advance the
cursor by `len(input_text) - len(remainder)`; on an absent remainder advance
it by `len(new_segment)` and reset the remainder; then collect the chunks. -/
def applyResult (s : SegState) (new_segment input_text : List Char) (r : SegResult) : SegState :=
  let s1 : SegState :=
    match r.remainder with
    | some rem =>
        { s with cursor := s.cursor + ((input_text.length : Int) - (rem.length : Int)),
                 current_remainder := rem }
    | none =>
        { s with cursor := s.cursor + (new_segment.length : Int),
                 current_remainder := [] }
  collectChunks s1 r.chunks

/-- Guard `max_segments is not None and segment_index > max_segments`. -/
def stopAtMax (maxSegments : Option Nat) (idx : Nat) : Bool :=
  match maxSegments with
  | some m => decide (m < idx)
  | none => false

/-- One full loop iteration of `process_document` from state `s`: increment
`segment_index`, record the call, and apply the service's response. -/
def stepState (maxSize : Nat) (doc : List Char) (svc : Nat → List Char → SegResult)
    (s : SegState) : SegState :=
  applyResult
    { s with segment_index := s.segment_index + 1, calls := s.calls + 1,
             inputs := s.inputs ++ [inputTextOf maxSize doc s] }
    (newSegmentOf maxSize doc s) (inputTextOf maxSize doc s)
    (svc s.calls (inputTextOf maxSize doc s))

/-- The `while cursor < total_length` loop of `process_document`, with `fuel`
bounding the number of iterations the model unfolds.  The three exits of the
Python loop are kept: the loop condition, the `max_segments` break, and the
defensive `if not input_text: break`. -/
def segLoop (maxSize : Nat) (maxSegments : Option Nat) (doc : List Char)
    (svc : Nat → List Char → SegResult) : Nat → SegState → SegState
  | 0, s => s
  | fuel + 1, s =>
    if s.cursor < (doc.length : Int) then
      if stopAtMax maxSegments (s.segment_index + 1) then
        { s with segment_index := s.segment_index + 1 }
      else if inputTextOf maxSize doc s = [] then
        { s with segment_index := s.segment_index + 1 }
      else
        segLoop maxSize maxSegments doc svc fuel (stepState maxSize doc svc s)
    else s

/-- Outcome of a full `process_document` run: the final state and the
unrecovered tail reported by the `[WARNING]` print of the cleanup pass. -/
structure RunResult where
  state : SegState
  reportedTail : Option (List Char)
deriving DecidableEq

/-- The final-cleanup pass of `process_document`: if `current_remainder` is
non-empty, one extra call on just that remainder, whose chunks are collected;
a non-empty remainder of that final call is only reported, never retried. -/
def finalCleanup (svc : Nat → List Char → SegResult) (s : SegState) : RunResult :=
  if s.current_remainder = [] then { state := s, reportedTail := none }
  else
    let r := svc s.calls s.current_remainder
    let s1 : SegState :=
      { s with calls := s.calls + 1, inputs := s.inputs ++ [s.current_remainder] }
    { state := collectChunks s1 r.chunks,
      reportedTail :=
        match r.remainder with
        | some t => if t = [] then none else some t
        | none => none }

/-- `LegalTextSegmenter.process_document` of `semantic_chunker.py`: the window
loop followed by the final-cleanup pass. -/
def process_document (maxSize : Nat) (maxSegments : Option Nat) (doc : List Char)
    (svc : Nat → List Char → SegResult) (fuel : Nat) : RunResult :=
  finalCleanup svc (segLoop maxSize maxSegments doc svc fuel initSegState)

/-- Concatenation of the `text` fields of a chunk sequence, in order. -/
def chunksText (cs : List Chunk) : List Char :=
  (cs.map fun c => c.raw.text).flatten

/-- Loop-invariant of the segmenter state: `cursor + len(remainder)` never
exceeds the total document length. -/
def SegInv (doc : List Char) (s : SegState) : Prop :=
  s.cursor + (s.current_remainder.length : Int) ≤ (doc.length : Int)

/-- The fallback value `{"chunks": [], "remainder": None}` returned by
`_call_gemini_segment` after all retries are exhausted. -/
def fallbackResult : SegResult :=
  { chunks := [], remainder := none }

/-- `LegalTextSegmenter._call_gemini_segment` as a function of its attempt
outcomes: each list entry is one `generate_content` attempt, `none` meaning the
attempt raised and `some r` meaning it returned parsed JSON `r`.  The first
successful attempt's value is returned; once every attempt has failed the
fallback is returned (the function never raises to its caller).  The source
runs exactly `range(3)` attempts, i.e. a three-element outcome list. -/
def callGeminiSegment : List (Option SegResult) → SegResult
  | [] => fallbackResult
  | some r :: _ => r
  | none :: rest => callGeminiSegment rest

/-- Python exception raised by `app/pipeline.py`'s `process_document`:
`len(None)` inside `consumed_length = len(input_text) - len(result.get("remainder", ""))`
raises `TypeError` when the dict holds `None` under `"remainder"`. -/
inductive PyErr where
  | typeError
deriving DecidableEq

/-- State of `app/pipeline.py`'s `process_document` loop (no `max_segments`,
no `segment_index` bookkeeping needed beyond the print). -/
structure PState where
  cursor : Int
  current_remainder : List Char
  all_final_chunks : List Chunk
  calls : Nat
  nextId : Nat
deriving DecidableEq

/-- Initial state of the pipeline variant's loop. -/
def initPState : PState :=
  { cursor := 0, current_remainder := [], all_final_chunks := [], calls := 0, nextId := 0 }

/-- Append minted chunks in the pipeline variant. -/
def pCollectChunks (s : PState) (cs : List RawChunk) : PState :=
  { s with all_final_chunks := s.all_final_chunks ++ mintChunks s.nextId cs,
           nextId := s.nextId + cs.length }

/-- The `while cursor < total_length` loop of `app/pipeline.py`'s
`process_document` (lines 192-209).  It has no failure branch: it always
computes `len(input_text) - len(result.get("remainder", ""))`, so a response
holding `None` under `"remainder"` (the retry-exhausted fallback) raises
`TypeError` out of the loop before any chunk of that response is collected. -/
def pipelineLoop (maxSize : Nat) (doc : List Char) (svc : Nat → List Char → SegResult) :
    Nat → PState → Except PyErr PState
  | 0, s => .ok s
  | fuel + 1, s =>
    if s.cursor < (doc.length : Int) then
      let segment_start : Int := s.cursor + (s.current_remainder.length : Int)
      let new_segment := pySlice doc segment_start (segment_start + (maxSize : Int))
      let input_text := s.current_remainder ++ new_segment
      if input_text = [] then .ok s
      else
        match svc s.calls input_text with
        | { chunks := cs, remainder := some rem } =>
          pipelineLoop maxSize doc svc fuel
            (pCollectChunks
              { s with cursor := s.cursor + ((input_text.length : Int) - (rem.length : Int)),
                       current_remainder := rem, calls := s.calls + 1 }
              cs)
        | { chunks := _, remainder := none } => .error .typeError
    else .ok s

/-- `app/pipeline.py`'s `process_document`: the loop, then (if no exception
escaped) the final-leftover call, which only reads `final_result.get("chunks", [])`. -/
def pipeline_process_document (maxSize : Nat) (doc : List Char)
    (svc : Nat → List Char → SegResult) (fuel : Nat) : Except PyErr PState :=
  match pipelineLoop maxSize doc svc fuel initPState with
  | .error e => .error e
  | .ok s =>
    if s.current_remainder = [] then .ok s
    else .ok (pCollectChunks { s with calls := s.calls + 1 } (svc s.calls s.current_remainder).chunks)

/-- Parsed JSON dict of one classification response: each field is `some v`
when the key is present.  `extract_metadata_via_gemini` checks key presence
with `all(key in metadata for key in ["title", "jurisdiction", "language"])`. -/
structure MetaDict where
  title : Option String
  jurisdiction : Option String
  language : Option String
deriving DecidableEq

/-- The structural-completeness check of the classifier response. -/
def metadataComplete (d : MetaDict) : Bool :=
  d.title.isSome && d.jurisdiction.isSome && d.language.isSome

/-- `extract_metadata_via_gemini` of `semantic_chunker.py` as a function of its
attempt outcomes (`none` = the call raised, `some d` = it returned parsed dict
`d`).  A raising attempt is retried; a parsed response missing any required
field returns `None` immediately (structural failure is not retried); all
attempts exhausted returns `None`.  The source runs exactly three attempts. -/
def extract_metadata_via_gemini : List (Option MetaDict) → Option MetaDict
  | [] => none
  | none :: rest => extract_metadata_via_gemini rest
  | some d :: _ => if metadataComplete d then some d else none

/-- The orchestration of `semantic_chunker.py`'s `main` after text extraction
(lines 278-301): abort on empty extracted text; abort (without constructing
the Segmenter) when metadata extraction fails; otherwise run the Segmenter
with `max_segments = SEGMENTS_TO_RUN = 3`.  `none` means the Segmenter was
never invoked. -/
def main_pipeline (full_raw_text : List Char) (metaAttempts : List (Option MetaDict))
    (svc : Nat → List Char → SegResult) (fuel : Nat) : Option RunResult :=
  if full_raw_text = [] then none
  else
    match extract_metadata_via_gemini metaAttempts with
    | none => none
    | some _ => some (process_document MAX_SEGMENT_SIZE (some 3) full_raw_text svc fuel)

/-- Value stored in an upsert record: a metadata string, a chunk text, or a
minted identifier. -/
inductive FieldVal where
  | str : String → FieldVal
  | txt : List Char → FieldVal
  | ident : Nat → FieldVal
deriving DecidableEq

/-- The flat record built per chunk by `upsert_to_pinecone` in
`app/pipeline.py` (lines 224-233), as the ordered key/value list of the dict
literal.  No embedding is computed: the record holds only `text` and metadata. -/
def pipeline_upsert_record (c : Chunk) (file_path : String) : List (String × FieldVal) :=
  [("_id", .ident c.id),
   ("text", .txt c.raw.text),
   ("article_number", .str c.raw.article_number),
   ("title", .str c.raw.title),
   ("jurisdiction", .str c.raw.jurisdiction),
   ("pdf_source_path", .str file_path)]

/-- The flat record built per chunk by `upsert_to_pinecone` in
`build_pinecone_db.py` (lines 300-310); this variant also carries `language`. -/
def build_upsert_record (c : Chunk) (file_path : String) : List (String × FieldVal) :=
  [("_id", .ident c.id),
   ("text", .txt c.raw.text),
   ("article_number", .str c.raw.article_number),
   ("title", .str c.raw.title),
   ("jurisdiction", .str c.raw.jurisdiction),
   ("language", .str c.raw.language),
   ("pdf_source_path", .str file_path)]

/-- Records handed to `pinecone_index.upsert_records` by `app/pipeline.py`. -/
def upsert_to_pinecone_pipeline (chunks : List Chunk) (file_path : String) :
    List (List (String × FieldVal)) :=
  chunks.map fun c => pipeline_upsert_record c file_path

/-- Records handed to `pinecone_index.upsert_records` by `build_pinecone_db.py`. -/
def upsert_to_pinecone_build (chunks : List Chunk) (file_path : String) :
    List (List (String × FieldVal)) :=
  chunks.map fun c => build_upsert_record c file_path

/-- Configuration constant `BATCH_SIZE` of `embed_kb.py`. -/
def BATCH_SIZE : Nat := 100

/-- The batching loop of `get_embeddings` (`embed_kb.py` lines 70-139): one
oracle query per batch of up to `BATCH_SIZE` texts, `none` meaning the batch
failed all three attempts (the function returns `None` at once), `some es`
the normalized embeddings list of that batch, extended onto the accumulator. -/
def embedLoop {α : Type} (oracle : Nat → List String → Option (List α)) :
    Nat → List String → Option (List α)
  | _, [] => some []
  | b, t :: ts =>
    match oracle b ((t :: ts).take BATCH_SIZE) with
    | none => none
    | some es =>
      match embedLoop oracle (b + 1) (ts.drop (BATCH_SIZE - 1)) with
      | none => none
      | some rest => some (es ++ rest)
termination_by _ l => l.length
decreasing_by
  simp only [List.length_drop, List.length_cons]
  omega

/-- `get_embeddings` of `embed_kb.py`: run the batching loop, then return the
accumulated list only when `len(all_embeddings) == len(texts)`, else `None`. -/
def get_embeddings {α : Type} (texts : List String)
    (oracle : Nat → List String → Option (List α)) : Option (List α) :=
  match embedLoop oracle 0 texts with
  | none => none
  | some all => if all.length = texts.length then some all else none

/-- Service stub for the no-loss property: every call succeeds, returns
`remainder = ""` and a single chunk built from the full input text. -/
def echoSvc (mk : List Char → RawChunk) : Nat → List Char → SegResult :=
  fun _ input => { chunks := [mk input], remainder := some [] }

/-- The well-formedness every real segmentation response satisfies: the
returned remainder is trailing text of the call's input, so it is never
longer than the input. -/
def SvcRemainderBounded (svc : Nat → List Char → SegResult) : Prop :=
  ∀ (n : Nat) (input rem : List Char),
    (svc n input).remainder = some rem → rem.length ≤ input.length

/-- Service trace refuting strict cursor progress on failure: the first call
succeeds but consumes only one character (remainder `"b"`); the second call
fails all retries (absent remainder). -/
def svcC2 : Nat → List Char → SegResult :=
  fun n _ =>
    if n = 0 then { chunks := [], remainder := some ['b'] }
    else { chunks := [], remainder := none }

/-- Service response refuting cursor monotonicity under arbitrary responses:
a remainder strictly longer than the two-character input. -/
def svcC6 : Nat → List Char → SegResult :=
  fun _ _ => { chunks := [], remainder := some ['x', 'y', 'z'] }

/-- Document of 2502 characters (one character more than two full windows
cannot happen at `MAX_SEGMENT_SIZE = 2500`; this one exceeds one window by
two characters). -/
def docC5 : List Char := List.replicate 2500 'a' ++ ['b', 'c']

/-- Service trace for the failure-branch skip analysis on `docC5`: call 0
succeeds leaving remainder `"aa"` (the last two characters of its input),
call 1 fails all retries, later calls succeed with empty remainder. -/
def svcC5 : Nat → List Char → SegResult :=
  fun n _ =>
    if n = 0 then { chunks := [], remainder := some (List.replicate 2 'a') }
    else if n = 1 then { chunks := [], remainder := none }
    else { chunks := [], remainder := some [] }

/-- Service trace for the finalization claim: every call succeeds with one
leftover character `"b"` as remainder. -/
def svcC7 : Nat → List Char → SegResult :=
  fun _ _ => { chunks := [], remainder := some ['b'] }

/-! ### Basic facts about `pySlice` -/

theorem pySlice_nonneg (l : List Char) (a b : Int) (ha : 0 ≤ a) (hb : 0 ≤ b) :
    pySlice l a b = (l.drop a.toNat).take (b.toNat - a.toNat) := by
  simp only [pySlice]
  rw [if_neg (by omega), if_neg (by omega)]
  rcases le_or_lt a (l.length : Int) with h | h
  · rw [min_eq_left h]
    rcases le_or_lt b (l.length : Int) with h2 | h2
    · rw [min_eq_left h2]
      congr 1
      omega
    · rw [min_eq_right h2.le]
      have hlen : (l.drop a.toNat).length = l.length - a.toNat := List.length_drop _ _
      rw [List.take_of_length_le (by omega), List.take_of_length_le (by omega)]
  · rw [min_eq_right h.le]
    rw [Int.toNat_natCast, List.drop_length]
    rw [List.drop_eq_nil_of_le (show l.length ≤ a.toNat by omega)]
    simp

theorem pySlice_length_le (l : List Char) (a b : Int) (h : a ≤ (l.length : Int)) :
    a + ((pySlice l a b).length : Int) ≤ (l.length : Int) := by
  simp only [pySlice, List.length_take, List.length_drop]
  split_ifs <;> omega

theorem pySlice_length_pos (l : List Char) (a b : Int) (h0 : 0 ≤ a)
    (h1 : a < (l.length : Int)) (h2 : a < b) : 0 < (pySlice l a b).length := by
  simp only [pySlice, List.length_take, List.length_drop]
  split_ifs <;> omega

/-! ### Facts about chunk collection -/

theorem chunksText_append (a b : List Chunk) :
    chunksText (a ++ b) = chunksText a ++ chunksText b := by
  simp [chunksText]

theorem chunksText_mint_single (n : Nat) (r : RawChunk) :
    chunksText (mintChunks n [r]) = r.text := by
  simp [chunksText, mintChunks]

/-! ### One-step unfolding of the segmenter loop -/

theorem segLoop_zero (M : Nat) (mx : Option Nat) (doc : List Char)
    (svc : Nat → List Char → SegResult) (s : SegState) :
    segLoop M mx doc svc 0 s = s := rfl

theorem segLoop_succ_run (M : Nat) (mx : Option Nat) (doc : List Char)
    (svc : Nat → List Char → SegResult) (fuel : Nat) (s : SegState)
    (h1 : s.cursor < (doc.length : Int))
    (h2 : stopAtMax mx (s.segment_index + 1) = false)
    (h3 : inputTextOf M doc s ≠ []) :
    segLoop M mx doc svc (fuel + 1) s = segLoop M mx doc svc fuel (stepState M doc svc s) := by
  simp [segLoop, h1, h2, h3]

theorem segLoop_succ_done (M : Nat) (mx : Option Nat) (doc : List Char)
    (svc : Nat → List Char → SegResult) (fuel : Nat) (s : SegState)
    (h1 : ¬ s.cursor < (doc.length : Int)) :
    segLoop M mx doc svc (fuel + 1) s = s := by
  simp [segLoop, h1]

theorem stepState_success (M : Nat) (doc : List Char) (svc : Nat → List Char → SegResult)
    (s : SegState) (cs : List RawChunk) (rem : List Char)
    (h : svc s.calls (inputTextOf M doc s) = { chunks := cs, remainder := some rem }) :
    stepState M doc svc s =
      { cursor := s.cursor + (((inputTextOf M doc s).length : Int) - (rem.length : Int)),
        current_remainder := rem,
        all_final_chunks := s.all_final_chunks ++ mintChunks s.nextId cs,
        segment_index := s.segment_index + 1,
        calls := s.calls + 1,
        inputs := s.inputs ++ [inputTextOf M doc s],
        nextId := s.nextId + cs.length } := by
  simp [stepState, applyResult, collectChunks, h]

theorem stepState_failure (M : Nat) (doc : List Char) (svc : Nat → List Char → SegResult)
    (s : SegState) (cs : List RawChunk)
    (h : svc s.calls (inputTextOf M doc s) = { chunks := cs, remainder := none }) :
    stepState M doc svc s =
      { cursor := s.cursor + ((newSegmentOf M doc s).length : Int),
        current_remainder := [],
        all_final_chunks := s.all_final_chunks ++ mintChunks s.nextId cs,
        segment_index := s.segment_index + 1,
        calls := s.calls + 1,
        inputs := s.inputs ++ [inputTextOf M doc s],
        nextId := s.nextId + cs.length } := by
  simp [stepState, applyResult, collectChunks, h]

theorem segLoop_succ_break_max (M : Nat) (mx : Option Nat) (doc : List Char)
    (svc : Nat → List Char → SegResult) (fuel : Nat) (s : SegState)
    (h1 : s.cursor < (doc.length : Int))
    (h2 : stopAtMax mx (s.segment_index + 1) = true) :
    segLoop M mx doc svc (fuel + 1) s = { s with segment_index := s.segment_index + 1 } := by
  simp [segLoop, h1, h2]

theorem segLoop_succ_break_empty (M : Nat) (mx : Option Nat) (doc : List Char)
    (svc : Nat → List Char → SegResult) (fuel : Nat) (s : SegState)
    (h1 : s.cursor < (doc.length : Int))
    (h2 : stopAtMax mx (s.segment_index + 1) = false)
    (h3 : inputTextOf M doc s = []) :
    segLoop M mx doc svc (fuel + 1) s = { s with segment_index := s.segment_index + 1 } := by
  simp [segLoop, h1, h2, h3]

/-! ### Preservation of the state invariant -/

theorem newSegmentOf_eq_pySlice (M : Nat) (doc : List Char) (s : SegState) :
    newSegmentOf M doc s =
      pySlice doc (s.cursor + (s.current_remainder.length : Int))
        (s.cursor + (s.current_remainder.length : Int) + (M : Int)) := rfl

theorem segInv_stepState (M : Nat) (doc : List Char) (svc : Nat → List Char → SegResult)
    (s : SegState) (hInv : SegInv doc s) : SegInv doc (stepState M doc svc s) := by
  have hsl := pySlice_length_le doc (s.cursor + (s.current_remainder.length : Int))
      (s.cursor + (s.current_remainder.length : Int) + (M : Int)) hInv
  rw [← newSegmentOf_eq_pySlice] at hsl
  have hlen : (inputTextOf M doc s).length
      = s.current_remainder.length + (newSegmentOf M doc s).length := by
    simp [inputTextOf]
  rcases hresp : svc s.calls (inputTextOf M doc s) with ⟨cs, rem?⟩
  cases rem? with
  | some rem =>
    rw [stepState_success M doc svc s cs rem hresp]
    simp only [SegInv] at *
    omega
  | none =>
    rw [stepState_failure M doc svc s cs hresp]
    simp only [SegInv, List.length_nil, Nat.cast_zero, add_zero] at *
    omega

theorem segInv_segLoop (M : Nat) (mx : Option Nat) (doc : List Char)
    (svc : Nat → List Char → SegResult) (fuel : Nat) (s : SegState)
    (hInv : SegInv doc s) : SegInv doc (segLoop M mx doc svc fuel s) := by
  induction fuel generalizing s with
  | zero => exact hInv
  | succ fuel ih =>
    by_cases h1 : s.cursor < (doc.length : Int)
    · rcases h2 : stopAtMax mx (s.segment_index + 1) with _ | _
      · by_cases h3 : inputTextOf M doc s = []
        · rw [segLoop_succ_break_empty M mx doc svc fuel s h1 h2 h3]
          simpa [SegInv] using hInv
        · rw [segLoop_succ_run M mx doc svc fuel s h1 h2 h3]
          exact ih _ (segInv_stepState M doc svc s hInv)
      · rw [segLoop_succ_break_max M mx doc svc fuel s h1 h2]
        simpa [SegInv] using hInv
    · rw [segLoop_succ_done M mx doc svc fuel s h1]
      exact hInv

/-! ### Cursor monotonicity under well-formed responses -/

theorem cursor_le_stepState (M : Nat) (doc : List Char) (svc : Nat → List Char → SegResult)
    (s : SegState) (hsvc : SvcRemainderBounded svc) :
    s.cursor ≤ (stepState M doc svc s).cursor := by
  rcases hresp : svc s.calls (inputTextOf M doc s) with ⟨cs, rem?⟩
  cases rem? with
  | some rem =>
    have hb := hsvc s.calls (inputTextOf M doc s) rem (by rw [hresp])
    rw [stepState_success M doc svc s cs rem hresp]
    simp only []
    omega
  | none =>
    rw [stepState_failure M doc svc s cs hresp]
    simp only []
    omega

theorem cursor_le_segLoop (M : Nat) (mx : Option Nat) (doc : List Char)
    (svc : Nat → List Char → SegResult) (fuel : Nat) (s : SegState)
    (hsvc : SvcRemainderBounded svc) :
    s.cursor ≤ (segLoop M mx doc svc fuel s).cursor := by
  induction fuel generalizing s with
  | zero => exact le_refl _
  | succ fuel ih =>
    by_cases h1 : s.cursor < (doc.length : Int)
    · rcases h2 : stopAtMax mx (s.segment_index + 1) with _ | _
      · by_cases h3 : inputTextOf M doc s = []
        · rw [segLoop_succ_break_empty M mx doc svc fuel s h1 h2 h3]
        · rw [segLoop_succ_run M mx doc svc fuel s h1 h2 h3]
          exact le_trans (cursor_le_stepState M doc svc s hsvc) (ih _)
      · rw [segLoop_succ_break_max M mx doc svc fuel s h1 h2]
    · rw [segLoop_succ_done M mx doc svc fuel s h1]

/-! ### The all-success echo run -/

theorem newSegmentOf_nil_rem (M : Nat) (doc : List Char) (s : SegState) (c : Nat)
    (hcur : s.cursor = (c : Int)) (hrem : s.current_remainder = []) :
    newSegmentOf M doc s = (doc.drop c).take M := by
  simp only [newSegmentOf, hcur, hrem, List.length_nil, Nat.cast_zero, add_zero]
  rw [show ((c : Int) + (M : Int)) = ((c + M : Nat) : Int) by push_cast; ring]
  rw [pySlice_nonneg _ _ _ (Int.natCast_nonneg c) (Int.natCast_nonneg (c + M))]
  rw [Int.toNat_natCast, Int.toNat_natCast]
  congr 1
  omega

theorem echo_segLoop (M : Nat) (hM : 0 < M) (doc : List Char)
    (mk : List Char → RawChunk) (hmk : ∀ t, (mk t).text = t) :
    ∀ (fuel c : Nat) (s : SegState),
      s.cursor = (c : Int) → s.current_remainder = [] →
      c ≤ doc.length → doc.length - c ≤ fuel →
      (segLoop M none doc (echoSvc mk) fuel s).cursor = (doc.length : Int) ∧
      (segLoop M none doc (echoSvc mk) fuel s).current_remainder = [] ∧
      chunksText (segLoop M none doc (echoSvc mk) fuel s).all_final_chunks
        = chunksText s.all_final_chunks ++ doc.drop c := by
  intro fuel
  induction fuel with
  | zero =>
    intro c s hcur hrem hcL hfuel
    have hc : c = doc.length := by omega
    subst hc
    rw [segLoop_zero]
    exact ⟨hcur, hrem, by simp⟩
  | succ fuel ih =>
    intro c s hcur hrem hcL hfuel
    by_cases hc : c < doc.length
    case neg =>
      have hc' : c = doc.length := by omega
      subst hc'
      rw [segLoop_succ_done M none doc (echoSvc mk) fuel s (by rw [hcur]; exact lt_irrefl _)]
      exact ⟨hcur, hrem, by simp⟩
    case pos =>
      have hns : newSegmentOf M doc s = (doc.drop c).take M :=
        newSegmentOf_nil_rem M doc s c hcur hrem
      have hin : inputTextOf M doc s = (doc.drop c).take M := by
        simp [inputTextOf, hrem, hns]
      have hlen : (inputTextOf M doc s).length = min M (doc.length - c) := by
        rw [hin, List.length_take, List.length_drop]
      have hne : inputTextOf M doc s ≠ [] := by
        apply List.ne_nil_of_length_pos
        rw [hlen]
        omega
      rw [segLoop_succ_run M none doc (echoSvc mk) fuel s
        (by rw [hcur]; exact_mod_cast hc) rfl hne]
      rw [stepState_success M doc (echoSvc mk) s [mk (inputTextOf M doc s)] [] rfl]
      have hstep := ih (c + min M (doc.length - c))
        { cursor := s.cursor + (((inputTextOf M doc s).length : Int) - (([] : List Char).length : Int)),
          current_remainder := [],
          all_final_chunks := s.all_final_chunks ++ mintChunks s.nextId [mk (inputTextOf M doc s)],
          segment_index := s.segment_index + 1,
          calls := s.calls + 1,
          inputs := s.inputs ++ [inputTextOf M doc s],
          nextId := s.nextId + ([mk (inputTextOf M doc s)]).length }
        (by simp only [hcur, hlen, List.length_nil, Nat.cast_zero, sub_zero]; push_cast; omega)
        rfl (by omega) (by omega)
      refine ⟨hstep.1, hstep.2.1, ?_⟩
      rw [hstep.2.2]
      simp only [chunksText_append, chunksText_mint_single, hmk]
      rw [List.append_assoc]
      congr 1
      rw [hin]
      have hdd : (doc.drop c).drop M = doc.drop (c + min M (doc.length - c)) := by
        rw [List.drop_drop]
        rcases le_or_lt M (doc.length - c) with h | h
        · congr 1
          omega
        · rw [List.drop_eq_nil_of_le (by omega), List.drop_eq_nil_of_le (by omega)]
      rw [← hdd, List.take_append_drop]

/-! ### Claims -/

/-- C1: for every document text and a segmentation-service stub whose every
call succeeds and returns `remainder = ""` together with the full input text
back as a single chunk, `process_document` terminates with the cursor advanced
to exactly the document length, the concatenation of the collected chunks'
text fields equal to the original document text, and no unrecovered tail. -/
theorem claim_C1 (doc : List Char) (mk : List Char → RawChunk) (fuel : Nat)
    (hmk : ∀ t, (mk t).text = t) (hfuel : doc.length ≤ fuel) :
    (process_document MAX_SEGMENT_SIZE none doc (echoSvc mk) fuel).state.cursor
      = (doc.length : Int) ∧
    chunksText
        (process_document MAX_SEGMENT_SIZE none doc (echoSvc mk) fuel).state.all_final_chunks
      = doc ∧
    (process_document MAX_SEGMENT_SIZE none doc (echoSvc mk) fuel).reportedTail = none := by
  have h := echo_segLoop MAX_SEGMENT_SIZE (by norm_num [MAX_SEGMENT_SIZE]) doc mk hmk
    fuel 0 initSegState rfl rfl (Nat.zero_le _) (by omega)
  simp only [process_document, finalCleanup]
  rw [if_pos h.2.1]
  refine ⟨h.1, ?_, rfl⟩
  rw [h.2.2]
  simp [initSegState, chunksText]

/-- Witness for C1 at the concrete document `"abc"`. -/
theorem claim_C1_witness :
    (process_document MAX_SEGMENT_SIZE none ['a', 'b', 'c']
        (echoSvc fun t => { title := "T", jurisdiction := "SWISS", language := "ENG",
                            article_number := "1", text := t }) 3).state.cursor = (3 : Int) ∧
    chunksText
        (process_document MAX_SEGMENT_SIZE none ['a', 'b', 'c']
          (echoSvc fun t => { title := "T", jurisdiction := "SWISS", language := "ENG",
                              article_number := "1", text := t }) 3).state.all_final_chunks
      = ['a', 'b', 'c'] ∧
    (process_document MAX_SEGMENT_SIZE none ['a', 'b', 'c']
        (echoSvc fun t => { title := "T", jurisdiction := "SWISS", language := "ENG",
                            article_number := "1", text := t }) 3).reportedTail = none := by
  simpa using claim_C1 ['a', 'b', 'c']
    (fun t => { title := "T", jurisdiction := "SWISS", language := "ENG",
                article_number := "1", text := t }) 3 (fun _ => rfl) (by norm_num)

/-- C2 counterexample: on the document `"ab"`, call 0 succeeds consuming one
character (remainder `"b"`), so after iteration 1 the cursor is 1 and the
remainder reaches the end of the document; iteration 2's call (index 1) fails
all retries (absent remainder), and the cursor after that failure iteration
equals the cursor before it — it is not strictly greater. -/
theorem claim_C2_counterexample :
    (svcC2 1 (inputTextOf MAX_SEGMENT_SIZE ['a', 'b']
        (segLoop MAX_SEGMENT_SIZE none ['a', 'b'] svcC2 1 initSegState))).remainder = none ∧
    (segLoop MAX_SEGMENT_SIZE none ['a', 'b'] svcC2 1 initSegState).calls = 1 ∧
    (segLoop MAX_SEGMENT_SIZE none ['a', 'b'] svcC2 2 initSegState).calls = 2 ∧
    (segLoop MAX_SEGMENT_SIZE none ['a', 'b'] svcC2 1 initSegState).cursor = 1 ∧
    (segLoop MAX_SEGMENT_SIZE none ['a', 'b'] svcC2 2 initSegState).cursor
      = (segLoop MAX_SEGMENT_SIZE none ['a', 'b'] svcC2 1 initSegState).cursor := by
  decide

/-- C2 (amended): on a failure iteration the cursor advances by exactly the
length of the freshly sliced segment and the remainder resets to empty; this
advance is strictly positive whenever the window start
`cursor + len(remainder)` still lies inside the document — in particular
whenever the carried remainder was empty — but it is zero when the carried
remainder already reaches the end of the document. -/
theorem claim_C2_amended (doc : List Char) (svc : Nat → List Char → SegResult) (s : SegState)
    (hfail : (svc s.calls (inputTextOf MAX_SEGMENT_SIZE doc s)).remainder = none) :
    (stepState MAX_SEGMENT_SIZE doc svc s).cursor
      = s.cursor + ((newSegmentOf MAX_SEGMENT_SIZE doc s).length : Int) ∧
    (stepState MAX_SEGMENT_SIZE doc svc s).current_remainder = [] ∧
    (0 ≤ s.cursor →
      s.cursor + (s.current_remainder.length : Int) < (doc.length : Int) →
      s.cursor < (stepState MAX_SEGMENT_SIZE doc svc s).cursor) := by
  rcases hresp : svc s.calls (inputTextOf MAX_SEGMENT_SIZE doc s) with ⟨cs, rem?⟩
  cases rem? with
  | some rem => rw [hresp] at hfail; simp at hfail
  | none =>
    rw [stepState_failure MAX_SEGMENT_SIZE doc svc s cs hresp]
    refine ⟨rfl, rfl, ?_⟩
    intro h0 h1
    have hp := pySlice_length_pos doc (s.cursor + (s.current_remainder.length : Int))
      (s.cursor + (s.current_remainder.length : Int) + (MAX_SEGMENT_SIZE : Int))
      (by omega) h1 (by simp only [MAX_SEGMENT_SIZE]; omega)
    rw [← newSegmentOf_eq_pySlice] at hp
    simp only []
    omega

/-- Witness for the amended C2 at a concrete failing call on `"ab"`. -/
theorem claim_C2_amended_witness :
    (stepState MAX_SEGMENT_SIZE ['a', 'b'] (fun _ _ => fallbackResult) initSegState).cursor
      = initSegState.cursor
        + ((newSegmentOf MAX_SEGMENT_SIZE ['a', 'b'] initSegState).length : Int) ∧
    (stepState MAX_SEGMENT_SIZE ['a', 'b']
        (fun _ _ => fallbackResult) initSegState).current_remainder = [] ∧
    (0 ≤ initSegState.cursor →
      initSegState.cursor + (initSegState.current_remainder.length : Int)
        < ((['a', 'b'] : List Char).length : Int) →
      initSegState.cursor
        < (stepState MAX_SEGMENT_SIZE ['a', 'b'] (fun _ _ => fallbackResult) initSegState).cursor) :=
  claim_C2_amended ['a', 'b'] (fun _ _ => fallbackResult) initSegState rfl

/-- C4: whenever a segmentation call for a document returns a non-empty
remainder `r`, the next call's input starts with exactly `r` (character for
character) followed by the newly sliced fresh document text. -/
theorem claim_C4 (doc : List Char) (svc : Nat → List Char → SegResult) (s : SegState)
    (cs : List RawChunk) (rem : List Char)
    (hresp : svc s.calls (inputTextOf MAX_SEGMENT_SIZE doc s)
      = { chunks := cs, remainder := some rem })
    (hne : rem ≠ []) :
    (stepState MAX_SEGMENT_SIZE doc svc s).current_remainder = rem ∧
    (inputTextOf MAX_SEGMENT_SIZE doc (stepState MAX_SEGMENT_SIZE doc svc s)).take rem.length
      = rem ∧
    (inputTextOf MAX_SEGMENT_SIZE doc (stepState MAX_SEGMENT_SIZE doc svc s)).drop rem.length
      = newSegmentOf MAX_SEGMENT_SIZE doc (stepState MAX_SEGMENT_SIZE doc svc s) := by
  rw [stepState_success MAX_SEGMENT_SIZE doc svc s cs rem hresp]
  refine ⟨rfl, ?_, ?_⟩
  · simp only [inputTextOf]
    exact List.take_left' rfl
  · simp only [inputTextOf]
    exact List.drop_left' rfl

/-- Witness for C4 at a concrete successful call on `"ab"` returning
remainder `"b"`. -/
theorem claim_C4_witness :
    (stepState MAX_SEGMENT_SIZE ['a', 'b']
        (fun _ _ => { chunks := [], remainder := some ['b'] }) initSegState).current_remainder
      = ['b'] ∧
    (inputTextOf MAX_SEGMENT_SIZE ['a', 'b']
        (stepState MAX_SEGMENT_SIZE ['a', 'b']
          (fun _ _ => { chunks := [], remainder := some ['b'] }) initSegState)).take
        (['b'] : List Char).length = ['b'] ∧
    (inputTextOf MAX_SEGMENT_SIZE ['a', 'b']
        (stepState MAX_SEGMENT_SIZE ['a', 'b']
          (fun _ _ => { chunks := [], remainder := some ['b'] }) initSegState)).drop
        (['b'] : List Char).length
      = newSegmentOf MAX_SEGMENT_SIZE ['a', 'b']
          (stepState MAX_SEGMENT_SIZE ['a', 'b']
            (fun _ _ => { chunks := [], remainder := some ['b'] }) initSegState) :=
  claim_C4 ['a', 'b'] (fun _ _ => { chunks := [], remainder := some ['b'] }) initSegState
    [] ['b'] rfl (by decide)

/-- C6 counterexample: a response whose remainder (three characters) is longer
than the call's two-character input makes the cursor strictly decrease within
one iteration, refuting unconditional monotonicity over every sequence of
service responses. -/
theorem claim_C6_counterexample :
    (segLoop MAX_SEGMENT_SIZE none ['a', 'b'] svcC6 1 initSegState).cursor
      < initSegState.cursor := by
  decide

/-- C6 (amended): for every document, service and state satisfying the window
invariant, (a) `cursor + len(remainder) ≤ total document length` holds again
after any number of loop iterations, and (b) provided every successful
response's remainder is no longer than its call's input — as the service
contract intends — the cursor never decreases across iterations. -/
theorem claim_C6_amended (mx : Option Nat) (doc : List Char)
    (svc : Nat → List Char → SegResult) (fuel : Nat) (s : SegState)
    (hInv : SegInv doc s) :
    SegInv doc (segLoop MAX_SEGMENT_SIZE mx doc svc fuel s) ∧
    (SvcRemainderBounded svc →
      s.cursor ≤ (segLoop MAX_SEGMENT_SIZE mx doc svc fuel s).cursor) :=
  ⟨segInv_segLoop MAX_SEGMENT_SIZE mx doc svc fuel s hInv,
   fun hsvc => cursor_le_segLoop MAX_SEGMENT_SIZE mx doc svc fuel s hsvc⟩

/-- Witness for the amended C6 on the initial state over `"ab"`. -/
theorem claim_C6_amended_witness :
    SegInv ['a', 'b'] (segLoop MAX_SEGMENT_SIZE none ['a', 'b'] svcC7 2 initSegState) ∧
    (SvcRemainderBounded svcC7 →
      initSegState.cursor
        ≤ (segLoop MAX_SEGMENT_SIZE none ['a', 'b'] svcC7 2 initSegState).cursor) :=
  claim_C6_amended none ['a', 'b'] svcC7 2 initSegState (by simp [SegInv, initSegState])

/-- C5 (amended): on the failure branch the Segmenter advances the cursor by
the length of the freshly-added slice and resets the remainder to empty;
consequently the next window's input is the document slice starting at the
pre-iteration cursor plus that length.  The region never re-offered is
therefore the slice of that length starting at the old cursor position —
when the carried remainder was non-empty this region covers remainder text,
while an equally long tail of the freshly-added slice is offered again. -/
theorem claim_C5_amended (doc : List Char) (svc : Nat → List Char → SegResult) (s : SegState)
    (hfail : (svc s.calls (inputTextOf MAX_SEGMENT_SIZE doc s)).remainder = none) :
    (stepState MAX_SEGMENT_SIZE doc svc s).cursor
      = s.cursor + ((newSegmentOf MAX_SEGMENT_SIZE doc s).length : Int) ∧
    (stepState MAX_SEGMENT_SIZE doc svc s).current_remainder = [] ∧
    inputTextOf MAX_SEGMENT_SIZE doc (stepState MAX_SEGMENT_SIZE doc svc s)
      = pySlice doc (s.cursor + ((newSegmentOf MAX_SEGMENT_SIZE doc s).length : Int))
          (s.cursor + ((newSegmentOf MAX_SEGMENT_SIZE doc s).length : Int)
            + (MAX_SEGMENT_SIZE : Int)) := by
  rcases hresp : svc s.calls (inputTextOf MAX_SEGMENT_SIZE doc s) with ⟨cs, rem?⟩
  cases rem? with
  | some rem => rw [hresp] at hfail; simp at hfail
  | none =>
    rw [stepState_failure MAX_SEGMENT_SIZE doc svc s cs hresp]
    refine ⟨rfl, rfl, ?_⟩
    simp [inputTextOf, newSegmentOf]

/-- Witness for the amended C5 at a concrete failing call on `"ab"`. -/
theorem claim_C5_amended_witness :
    (stepState MAX_SEGMENT_SIZE ['a', 'b'] (fun _ _ => fallbackResult) initSegState).cursor
      = initSegState.cursor
        + ((newSegmentOf MAX_SEGMENT_SIZE ['a', 'b'] initSegState).length : Int) ∧
    (stepState MAX_SEGMENT_SIZE ['a', 'b'] (fun _ _ => fallbackResult) initSegState).current_remainder = [] ∧
    inputTextOf MAX_SEGMENT_SIZE ['a', 'b']
        (stepState MAX_SEGMENT_SIZE ['a', 'b'] (fun _ _ => fallbackResult) initSegState)
      = pySlice ['a', 'b']
          (initSegState.cursor
            + ((newSegmentOf MAX_SEGMENT_SIZE ['a', 'b'] initSegState).length : Int))
          (initSegState.cursor
            + ((newSegmentOf MAX_SEGMENT_SIZE ['a', 'b'] initSegState).length : Int)
            + (MAX_SEGMENT_SIZE : Int)) :=
  claim_C5_amended ['a', 'b'] (fun _ _ => fallbackResult) initSegState rfl

theorem docC5_len : docC5.length = 2502 := by
  rw [docC5, List.length_append, List.length_replicate]
  norm_num

theorem c5_newSeg0 : newSegmentOf MAX_SEGMENT_SIZE docC5 initSegState
    = List.replicate 2500 'a' := by
  rw [newSegmentOf_nil_rem MAX_SEGMENT_SIZE docC5 initSegState 0 rfl rfl]
  rw [List.drop_zero, docC5]
  exact List.take_left' (List.length_replicate _ _)

theorem c5_input0 : inputTextOf MAX_SEGMENT_SIZE docC5 initSegState
    = List.replicate 2500 'a' := by
  rw [inputTextOf, c5_newSeg0]
  rfl

theorem c5_state1 : segLoop MAX_SEGMENT_SIZE none docC5 svcC5 1 initSegState
    = { cursor := 2498, current_remainder := List.replicate 2 'a', all_final_chunks := [],
        segment_index := 1, calls := 1, inputs := [List.replicate 2500 'a'], nextId := 0 } := by
  rw [segLoop_succ_run MAX_SEGMENT_SIZE none docC5 svcC5 0 initSegState
    (by rw [docC5_len]; norm_num [initSegState]) rfl
    (by rw [c5_input0]; exact List.ne_nil_of_length_pos (by rw [List.length_replicate]; norm_num))]
  rw [segLoop_zero]
  rw [stepState_success MAX_SEGMENT_SIZE docC5 svcC5 initSegState [] (List.replicate 2 'a') rfl]
  rw [c5_input0]
  simp only [initSegState, List.length_replicate, mintChunks, List.enum, List.map_nil,
    List.append_nil, List.nil_append, List.length_nil, Nat.add_zero]
  norm_num

theorem c5_newSeg1 :
    newSegmentOf MAX_SEGMENT_SIZE docC5 (segLoop MAX_SEGMENT_SIZE none docC5 svcC5 1 initSegState)
      = ['b', 'c'] := by
  rw [c5_state1, newSegmentOf_eq_pySlice]
  simp only [List.length_replicate, MAX_SEGMENT_SIZE]
  norm_num
  rw [pySlice_nonneg docC5 2500 5000 (by norm_num) (by norm_num)]
  rw [show ((2500 : Int)).toNat = 2500 from rfl, show ((5000 : Int)).toNat = 5000 from rfl]
  rw [docC5, List.drop_left' (List.length_replicate _ _)]
  rfl

theorem c5_input1 :
    inputTextOf MAX_SEGMENT_SIZE docC5 (segLoop MAX_SEGMENT_SIZE none docC5 svcC5 1 initSegState)
      = List.replicate 2 'a' ++ ['b', 'c'] := by
  rw [inputTextOf, c5_newSeg1, c5_state1]

theorem c5_state2 : segLoop MAX_SEGMENT_SIZE none docC5 svcC5 2 initSegState
    = { cursor := 2500, current_remainder := [], all_final_chunks := [],
        segment_index := 2, calls := 2,
        inputs := [List.replicate 2500 'a', List.replicate 2 'a' ++ ['b', 'c']],
        nextId := 0 } := by
  rw [show (2 : Nat) = 1 + 1 from rfl]
  rw [segLoop_succ_run MAX_SEGMENT_SIZE none docC5 svcC5 1 initSegState
    (by rw [docC5_len]; norm_num [initSegState]) rfl
    (by rw [c5_input0]; exact List.ne_nil_of_length_pos (by rw [List.length_replicate]; norm_num))]
  have hfold : stepState MAX_SEGMENT_SIZE docC5 svcC5 initSegState
      = segLoop MAX_SEGMENT_SIZE none docC5 svcC5 1 initSegState := by
    rw [segLoop_succ_run MAX_SEGMENT_SIZE none docC5 svcC5 0 initSegState
      (by rw [docC5_len]; norm_num [initSegState]) rfl
      (by rw [c5_input0];
          exact List.ne_nil_of_length_pos (by rw [List.length_replicate]; norm_num))]
    rw [segLoop_zero]
  rw [hfold]
  rw [segLoop_succ_run MAX_SEGMENT_SIZE none docC5 svcC5 0 _
    (by rw [c5_state1, docC5_len]; norm_num) (by rw [c5_state1]; rfl)
    (by rw [c5_input1]; simp)]
  rw [segLoop_zero]
  rw [stepState_failure MAX_SEGMENT_SIZE docC5 svcC5 _ [] (by rw [c5_state1]; rfl)]
  rw [c5_newSeg1, c5_input1, c5_state1]
  simp only [List.length_cons, List.length_nil, mintChunks, List.enum, List.map_nil,
    List.append_nil, List.nil_append, Nat.add_zero]
  norm_num

/-- C5 counterexample: on the 2502-character document `docC5` with service
trace `svcC5`, iteration 1 succeeds leaving cursor 2498 and remainder `"aa"`
(document positions 2498-2499); iteration 2 is the failure iteration, whose
freshly-added slice is `"bc"` (document positions 2500-2501).  After the
failure the cursor is 2500 and the remainder empty, so the next call's input
is again exactly `"bc"`: the freshly-added text of the failed iteration IS
re-offered, while the carried-over remainder region `"aa"` (positions
2498-2499) is the text never offered again — contrary to the claim that the
sacrificed region is exactly the freshly-added text and excludes the
remainder. -/
theorem claim_C5_counterexample :
    (segLoop MAX_SEGMENT_SIZE none docC5 svcC5 1 initSegState).cursor = 2498 ∧
    (segLoop MAX_SEGMENT_SIZE none docC5 svcC5 1 initSegState).current_remainder
      = List.replicate 2 'a' ∧
    newSegmentOf MAX_SEGMENT_SIZE docC5 (segLoop MAX_SEGMENT_SIZE none docC5 svcC5 1 initSegState)
      = ['b', 'c'] ∧
    (svcC5 (segLoop MAX_SEGMENT_SIZE none docC5 svcC5 1 initSegState).calls
        (inputTextOf MAX_SEGMENT_SIZE docC5
          (segLoop MAX_SEGMENT_SIZE none docC5 svcC5 1 initSegState))).remainder = none ∧
    (segLoop MAX_SEGMENT_SIZE none docC5 svcC5 2 initSegState).cursor = 2500 ∧
    (segLoop MAX_SEGMENT_SIZE none docC5 svcC5 2 initSegState).current_remainder = [] ∧
    inputTextOf MAX_SEGMENT_SIZE docC5 (segLoop MAX_SEGMENT_SIZE none docC5 svcC5 2 initSegState)
      = ['b', 'c'] := by
  refine ⟨by rw [c5_state1], by rw [c5_state1], c5_newSeg1, by rw [c5_state1]; rfl,
    by rw [c5_state2], by rw [c5_state2], ?_⟩
  rw [inputTextOf, newSegmentOf_eq_pySlice, c5_state2]
  simp only [List.length_nil, Nat.cast_zero, add_zero, List.nil_append, MAX_SEGMENT_SIZE]
  norm_num
  rw [pySlice_nonneg docC5 2500 5000 (by norm_num) (by norm_num)]
  rw [show ((2500 : Int)).toNat = 2500 from rfl, show ((5000 : Int)).toNat = 5000 from rfl]
  rw [docC5, List.drop_left' (List.length_replicate _ _)]
  rfl

/-- C7: whenever the window loop ends in a state whose remainder is non-empty,
`process_document` issues exactly one additional segmentation call on just
that remainder (no fresh text appended), collects its chunks, and makes no
further call even when that final call itself returns a non-empty remainder —
which is then reported as the unrecovered tail. -/
theorem claim_C7 (mx : Option Nat) (doc : List Char)
    (svc : Nat → List Char → SegResult) (fuel : Nat) (s : SegState)
    (hs : s = segLoop MAX_SEGMENT_SIZE mx doc svc fuel initSegState)
    (hrem : s.current_remainder ≠ []) :
    (process_document MAX_SEGMENT_SIZE mx doc svc fuel).state.calls = s.calls + 1 ∧
    (process_document MAX_SEGMENT_SIZE mx doc svc fuel).state.inputs
      = s.inputs ++ [s.current_remainder] ∧
    (process_document MAX_SEGMENT_SIZE mx doc svc fuel).state.all_final_chunks
      = s.all_final_chunks ++ mintChunks s.nextId (svc s.calls s.current_remainder).chunks ∧
    (∀ t, (svc s.calls s.current_remainder).remainder = some t → t ≠ [] →
      (process_document MAX_SEGMENT_SIZE mx doc svc fuel).reportedTail = some t) := by
  subst hs
  set s := segLoop MAX_SEGMENT_SIZE mx doc svc fuel initSegState with hsdef
  have hpd : process_document MAX_SEGMENT_SIZE mx doc svc fuel = finalCleanup svc s := by
    rw [process_document, hsdef]
  have hfc : finalCleanup svc s
      = { state := collectChunks
            { s with calls := s.calls + 1, inputs := s.inputs ++ [s.current_remainder] }
            (svc s.calls s.current_remainder).chunks,
          reportedTail :=
            match (svc s.calls s.current_remainder).remainder with
            | some t => if t = [] then none else some t
            | none => none } := by
    simp only [finalCleanup]
    rw [if_neg hrem]
  rw [hpd, hfc]
  refine ⟨rfl, rfl, rfl, ?_⟩
  intro t ht hne2
  simp only [collectChunks]
  rw [ht]
  simp [hne2]

/-- Witness for C7: on `"ab"` with `max_segments = 1` the loop breaks after
one window with remainder `"b"`, and the cleanup pass issues the single extra
call, whose non-empty remainder `"b"` is reported as the tail. -/
theorem claim_C7_witness :
    (process_document MAX_SEGMENT_SIZE (some 1) ['a', 'b'] svcC7 2).state.calls
      = (segLoop MAX_SEGMENT_SIZE (some 1) ['a', 'b'] svcC7 2 initSegState).calls + 1 ∧
    (process_document MAX_SEGMENT_SIZE (some 1) ['a', 'b'] svcC7 2).state.inputs
      = (segLoop MAX_SEGMENT_SIZE (some 1) ['a', 'b'] svcC7 2 initSegState).inputs
        ++ [(segLoop MAX_SEGMENT_SIZE (some 1) ['a', 'b'] svcC7 2 initSegState).current_remainder] ∧
    (process_document MAX_SEGMENT_SIZE (some 1) ['a', 'b'] svcC7 2).state.all_final_chunks
      = (segLoop MAX_SEGMENT_SIZE (some 1) ['a', 'b'] svcC7 2 initSegState).all_final_chunks
        ++ mintChunks (segLoop MAX_SEGMENT_SIZE (some 1) ['a', 'b'] svcC7 2 initSegState).nextId
            (svcC7 (segLoop MAX_SEGMENT_SIZE (some 1) ['a', 'b'] svcC7 2 initSegState).calls
              (segLoop MAX_SEGMENT_SIZE (some 1) ['a', 'b'] svcC7 2
                initSegState).current_remainder).chunks ∧
    (∀ t,
      (svcC7 (segLoop MAX_SEGMENT_SIZE (some 1) ['a', 'b'] svcC7 2 initSegState).calls
          (segLoop MAX_SEGMENT_SIZE (some 1) ['a', 'b'] svcC7 2
            initSegState).current_remainder).remainder = some t → t ≠ [] →
      (process_document MAX_SEGMENT_SIZE (some 1) ['a', 'b'] svcC7 2).reportedTail = some t) :=
  claim_C7 (some 1) ['a', 'b'] svcC7 2 _ rfl (by decide)

/-- C3 (code-bug exhibit): when every attempt fails, the retrying caller
`_call_gemini_segment` returns the fallback `{"chunks": [], "remainder": None}`
without raising; but the `app/pipeline.py` variant of `process_document` then
computes `len(input_text) - len(result.get("remainder", ""))`, which evaluates
`len(None)` and raises `TypeError`, so the iteration does not complete and an
exception propagates out of `process_document` — contrary to the claim. -/
theorem claim_C3_bug :
    callGeminiSegment [none, none, none] = fallbackResult ∧
    pipeline_process_document MAX_SEGMENT_SIZE ['a', 'b']
        (fun _ _ => callGeminiSegment [none, none, none]) 5
      = Except.error PyErr.typeError := by
  exact ⟨rfl, rfl⟩

/-- C8: a classification response that parses but is missing any required
field (title, jurisdiction, or language — e.g. `language`) makes
`extract_metadata_via_gemini` return failure, and the
orchestrator then aborts before constructing the Segmenter: the run performs
zero segmentation calls and produces zero chunks. -/
theorem claim_C8 (full_raw_text : List Char) (d : MetaDict)
    (rest : List (Option MetaDict)) (svc : Nat → List Char → SegResult) (fuel : Nat)
    (hd : d.title = none ∨ d.jurisdiction = none ∨ d.language = none) :
    extract_metadata_via_gemini (some d :: rest) = none ∧
    main_pipeline full_raw_text (some d :: rest) svc fuel = none := by
  have hc : metadataComplete d = false := by
    rcases hd with h | h | h <;> simp [metadataComplete, h]
  have h1 : extract_metadata_via_gemini (some d :: rest) = none := by
    simp [extract_metadata_via_gemini, hc]
  refine ⟨h1, ?_⟩
  by_cases ht : full_raw_text = []
  · simp [main_pipeline, ht]
  · simp [main_pipeline, ht, h1]

/-- Witness for C8: a concrete parsed response with title and jurisdiction
but no `language` key. -/
theorem claim_C8_witness :
    extract_metadata_via_gemini
        [some { title := some "T", jurisdiction := some "SWISS", language := none }] = none ∧
    main_pipeline ['x']
        [some { title := some "T", jurisdiction := some "SWISS", language := none }]
        (fun _ _ => fallbackResult) 1 = none :=
  claim_C8 ['x'] { title := some "T", jurisdiction := some "SWISS", language := none }
    [] (fun _ _ => fallbackResult) 1 (Or.inr (Or.inr rfl))

/-- C9 counterexample: the record built by `app/pipeline.py`'s
`upsert_to_pinecone` for a concrete chunk carries no `language` field,
refuting the claim that every upserted record carries all of identifier,
text, article number, title, jurisdiction, language and source path. -/
theorem claim_C9_counterexample :
    "language" ∉ (pipeline_upsert_record
        { raw := { title := "T", jurisdiction := "SWISS", language := "ENG",
                   article_number := "1", text := ['x'] }, id := 0 } "p").map Prod.fst := by
  decide

/-- C9 (amended): the `build_pinecone_db.py` indexer's record carries exactly
identifier, text, article number, title, jurisdiction, language and source
path, while the `app/pipeline.py` variant's record carries the same fields
except `language`; in both, the record's `text` value is the chunk's text
verbatim and no locally computed embedding value is present (no key beyond
the listed ones exists). -/
theorem claim_C9_amended (c : Chunk) (path : String) :
    (build_upsert_record c path).map Prod.fst
      = ["_id", "text", "article_number", "title", "jurisdiction", "language",
         "pdf_source_path"] ∧
    ("text", FieldVal.txt c.raw.text) ∈ build_upsert_record c path ∧
    (pipeline_upsert_record c path).map Prod.fst
      = ["_id", "text", "article_number", "title", "jurisdiction", "pdf_source_path"] ∧
    ("text", FieldVal.txt c.raw.text) ∈ pipeline_upsert_record c path ∧
    "embedding" ∉ (build_upsert_record c path).map Prod.fst ∧
    "embedding" ∉ (pipeline_upsert_record c path).map Prod.fst := by
  refine ⟨rfl, ?_, rfl, ?_, ?_, ?_⟩
  · simp [build_upsert_record]
  · simp [pipeline_upsert_record]
  · have hkeys : (build_upsert_record c path).map Prod.fst
        = ["_id", "text", "article_number", "title", "jurisdiction", "language",
           "pdf_source_path"] := rfl
    rw [hkeys]
    decide
  · have hkeys : (pipeline_upsert_record c path).map Prod.fst
        = ["_id", "text", "article_number", "title", "jurisdiction",
           "pdf_source_path"] := rfl
    rw [hkeys]
    decide

/-- C10: `get_embeddings` returns either `None` or a list of embeddings whose
length equals the number of input texts — never a partially populated or
misaligned list — so every vector position corresponds to the chunk at the
same position. -/
theorem claim_C10 {α : Type} (texts : List String)
    (oracle : Nat → List String → Option (List α)) (l : List α)
    (h : get_embeddings texts oracle = some l) : l.length = texts.length := by
  unfold get_embeddings at h
  rcases he : embedLoop oracle 0 texts with _ | all
  · rw [he] at h
    simp at h
  · rw [he] at h
    simp only [] at h
    split_ifs at h with hl
    injection h with h2
    subst h2
    exact hl

/-- Witness for C10 at one text and a one-embedding batch response. -/
theorem claim_C10_witness : ([7] : List Nat).length = (["x"] : List String).length :=
  claim_C10 ["x"] (fun _ _ => some [7]) [7] (by simp [get_embeddings, embedLoop, BATCH_SIZE])
